import Mathlib

/-!
Verification of the FuelRats API permission / document engine against its
specification.  The definitions below are a shallow embedding of the
JavaScript sources: `API.js` (the `APIResource` base class, its
`validateCreateAccess` / `validateUpdateAccess` attribute checks, the
relationship-change machinery and the route decorators), `Document.js`
(the JSONAPI envelope) and `routes/Rescues.js` (the rescues resource:
its write-permission policy map and its `isSelf` predicate).
-/

namespace FuelRats

/-- Structured error conditions raised by the engine (the `APIError`
subclasses used by the embedded code paths), carrying their JSONAPI
`source` information. -/
inductive APIError
  | forbidden (pointer : Option String)
  | badRequest (pointer : String)
  | notFound (parameter : String)
  | unprocessableEntity (pointer : String)
  deriving DecidableEq, Repr

/-- Request context state relevant to permission checks: the granted scope
list (`ctx.state.scope`) and the authenticated user id (`ctx.state.user`),
`none` when unauthenticated. -/
structure Ctx where
  scopes : List String
  userId : Option String
  deriving DecidableEq, Repr

/-- Modelled from the spec: `Permission.granted` (`API.js` imports it from
`./Permission`, which is not among the provided sources).  Per the spec a
facet such as `isGroup` is true iff the requester holds the corresponding
scope; `granted` receives a list of permissions (e.g. both `write.me` and
`write` in `hasWritePermission`) and holds when any of them is in the
granted scope set. -/
def granted (permissions : List String) (connection : Ctx) : Bool :=
  permissions.any fun p => connection.scopes.contains p

/-- The `WritePermission` enumeration from `API.js`. -/
inductive WritePermission
  | internal
  | self
  | group
  | sudo
  | all
  deriving DecidableEq, Repr

/-- The `switch (attributePermissions)` shared verbatim by
`validateCreateAccess` and `validateUpdateAccess`, deciding whether one
attribute's tier passes given the three facets. -/
def hasPermissionForTier (tier : WritePermission)
    (isGroup isSelf isInternal : Bool) : Bool :=
  match tier with
  | .all => true
  | .internal => isInternal
  | .sudo => isGroup
  | .group => isGroup || isSelf
  | .self => isSelf

/-- The `Object.entries(attributes).forEach` loop shared by
`validateCreateAccess` and `validateUpdateAccess`: each payload key is
looked up in `writePermissionsForFieldAccess` (`policy`); a key absent from
the policy map, or one whose tier check fails, throws `ForbiddenAPIError`
pointing at that attribute. -/
def checkWriteAttributes (policy : String → Option WritePermission)
    (isGroup isSelf isInternal : Bool) : List String → Except APIError Unit
  | [] => .ok ()
  | key :: rest =>
    match policy key with
    | none => .error (.forbidden (some ("/data/attributes/" ++ key)))
    | some tier =>
      if hasPermissionForTier tier isGroup isSelf isInternal then
        checkWriteAttributes policy isGroup isSelf isInternal rest
      else
        .error (.forbidden (some ("/data/attributes/" ++ key)))

/-- `APIResource.validateCreateAccess`: the facets are computed from scopes
alone (`<type>.write`, `<type>.write.me`, `<type>.internal`); no entity
exists yet, so no entity predicate takes part. -/
def validateCreateAccess (ty : String)
    (policy : String → Option WritePermission) (ctx : Ctx)
    (attributes : List String) : Except APIError Unit :=
  let isGroup := granted [ty ++ ".write"] ctx
  let isSelf := granted [ty ++ ".write.me"] ctx
  let isInternal := granted [ty ++ ".internal"] ctx
  checkWriteAttributes policy isGroup isSelf isInternal attributes

/-- `APIResource.validateUpdateAccess`: like create, except that the self
facet also requires the resource's `isSelf({ctx, entity})` predicate, whose
evaluated value is passed here as `selfPredicate`. -/
def validateUpdateAccess (ty : String)
    (policy : String → Option WritePermission) (selfPredicate : Bool)
    (ctx : Ctx) (attributes : List String) : Except APIError Unit :=
  let isGroup := granted [ty ++ ".write"] ctx
  let isSelf := selfPredicate && granted [ty ++ ".write.me"] ctx
  let isInternal := granted [ty ++ ".internal"] ctx
  checkWriteAttributes policy isGroup isSelf isInternal attributes

/-- `APIResource.hasWritePermission`: the entity-level write gate. -/
def hasWritePermission (ty : String) (selfPredicate : Bool) (ctx : Ctx) :
    Bool :=
  if selfPredicate then granted [ty ++ ".write.me", ty ++ ".write"] ctx
  else granted [ty ++ ".write"] ctx

/-- The attribute-write path of `APIResource.create` after `getJSONAPIData`:
`validateCreateAccess` over the payload's attribute keys, then
`databaseType.create` persists them.  The `ok` value is the list of keys
that were persisted; an error means nothing was persisted. -/
def createOp (ty : String) (policy : String → Option WritePermission)
    (ctx : Ctx) (attributes : List String) : Except APIError (List String) :=
  match validateCreateAccess ty policy ctx attributes with
  | .error e => .error e
  | .ok _ => .ok attributes

/-- The attribute-write path of `APIResource.update` after the entity is
fetched: `requireWritePermission` (the entity-level gate), then
`validateUpdateAccess`, then `entity.update(attributes)` persists the keys.
The `ok` value is the list of persisted keys; an error means nothing was
persisted. -/
def updateOp (ty : String) (policy : String → Option WritePermission)
    (selfPredicate : Bool) (ctx : Ctx) (attributes : List String) :
    Except APIError (List String) :=
  if hasWritePermission ty selfPredicate ctx = false then
    .error (.forbidden none)
  else
    match validateUpdateAccess ty policy selfPredicate ctx attributes with
    | .error e => .error e
    | .ok _ => .ok attributes

/-- The `writePermissionsForFieldAccess` policy map of `routes/Rescues.js`. -/
def rescuesWritePermissions : String → Option WritePermission
  | "client" => some .group
  | "clientNick" => some .group
  | "clientLanguage" => some .group
  | "commandIdentifier" => some .sudo
  | "codeRed" => some .group
  | "data" => some .group
  | "notes" => some .group
  | "platform" => some .group
  | "system" => some .group
  | "title" => some .sudo
  | "unidentifiedRats" => some .group
  | "outcome" => some .group
  | "quotes" => some .group
  | "createdAt" => some .internal
  | "updatedAt" => some .internal
  | "deletedAt" => some .internal
  | _ => none

/-- An unauthenticated context holding no scopes. -/
def emptyCtx : Ctx := ⟨[], none⟩

/-- A policy map with one self-tier field, as a user-profile style resource
would declare (the provided rescues map has no self-tier field; the check is
generic over the policy map). -/
def selfTierPolicy : String → Option WritePermission
  | "email" => some .self
  | _ => none

/-- A second self-tier policy map, for a token-value style field. -/
def tokenValuePolicy : String → Option WritePermission
  | "value" => some .self
  | _ => none

/-- A context holding only the users write-me scope. -/
def usersWriteMeCtx : Ctx := ⟨["users.write.me"], some "u1"⟩

/-- A context holding only the tokens write-me scope. -/
def tokensWriteMeCtx : Ctx := ⟨["tokens.write.me"], some "u2"⟩

/-- A rat reference as carried on a rescue entity (`rat.userId`). -/
structure RatRef where
  userId : String
  deriving DecidableEq, Repr

/-- The fields of a rescue entity that `Rescues.isSelf` inspects:
`createdAt` (milliseconds since the epoch), the assigned `rats` and the
optional `firstLimpet` rat. -/
structure RescueEntity where
  createdAt : Int
  rats : List RatRef
  firstLimpet : Option RatRef
  deriving DecidableEq, Repr

/-- `rescueAccessHours` from `routes/Rescues.js`. -/
def rescueAccessHours : Int := 3

/-- `rescueAccessTime` from `routes/Rescues.js` (milliseconds). -/
def rescueAccessTime : Int := rescueAccessHours * 60 * 60 * 1000

/-- `Rescues.isSelf` from `routes/Rescues.js`, with `Date.now()` passed in
as `now`: false without a user; true inside the creation grace window; for
an assigned rat or the first-limpet rat it requires the `rescues.write`
scope; false otherwise. -/
def rescuesIsSelf (now : Int) (ctx : Ctx) (entity : RescueEntity) : Bool :=
  match ctx.userId with
  | none => false
  | some uid =>
    if now - entity.createdAt < rescueAccessTime then
      true
    else
      let isAssigned := entity.rats.any fun rat => rat.userId == uid
      let isFirstLimpet :=
        match entity.firstLimpet with
        | some fl => fl.userId == uid
        | none => false
      if isAssigned || isFirstLimpet then
        granted ["rescues.write"] ctx
      else
        false

/-- The isSelf facet exactly as `validateUpdateAccess` computes it for the
rescues resource: the resource's `isSelf` predicate conjoined with the
`rescues.write.me` scope. -/
def rescuesSelfFacet (now : Int) (ctx : Ctx) (entity : RescueEntity) : Bool :=
  rescuesIsSelf now ctx entity && granted ["rescues.write.me"] ctx

/-- The C4 claim's own formula, stated as a definition for comparison with
the code: self iff the requester satisfies the type-specific predicate (is
an assigned rat, is the first-limpet rat, or the rescue was created within
the grace window) and holds the `rescues.write.me` scope. -/
def claimedRescuesSelfFacet (now : Int) (ctx : Ctx)
    (entity : RescueEntity) : Bool :=
  let selfPredicate :=
    match ctx.userId with
    | none => false
    | some uid =>
      decide (now - entity.createdAt < rescueAccessTime) ||
        (entity.rats.any fun rat => rat.userId == uid) ||
        (match entity.firstLimpet with
         | some fl => fl.userId == uid
         | none => false)
  selfPredicate && granted ["rescues.write.me"] ctx

/-- C4 counterexample context: an assigned rat holding only the
`rescues.write.me` scope. -/
def c4Ctx : Ctx := ⟨["rescues.write.me"], some "user1"⟩

/-- C4 counterexample entity: created at time 0, with `user1` assigned. -/
def c4Entity : RescueEntity := ⟨0, [⟨"user1"⟩], none⟩

/-- C4 counterexample time: twice the grace window after creation. -/
def c4Now : Int := 2 * rescueAccessTime

/-- A rendered JSONAPI resource object: its `type` and `id`. -/
structure ResourceObject where
  type : String
  id : String
  deriving DecidableEq, Repr

/-- The `Document` class of `Document.js`: the private `#objects` field (one
object or an array), and the `#type` view class, modelled by its two uses:
rendering one object (`view`) and listing its includes
(`generateIncludes`). -/
structure Document (α : Type) where
  objects : α ⊕ List α
  viewOf : α → ResourceObject
  generateIncludes : α → List ResourceObject

/-- The `data` getter: an array of objects is mapped through the view,
a single object is rendered directly. -/
def Document.dataGetter {α : Type} (d : Document α) :
    ResourceObject ⊕ List ResourceObject :=
  match d.objects with
  | .inr objs => .inr (objs.map d.viewOf)
  | .inl obj => .inl (d.viewOf obj)

/-- The `errors` getter of `Document.js`: it returns `null`
unconditionally. -/
def Document.errorsGetter {α : Type} (_d : Document α) :
    Option (List APIError) :=
  none

/-- JS object-accumulator semantics of `acc[include.id] = include` inside
the `included` getter: a key keeps its first-insertion position, the stored
value is the latest assignment for that key — and the key is `include.id`
alone. -/
def upsertById (acc : List ResourceObject) (inc : ResourceObject) :
    List ResourceObject :=
  if acc.any fun r => r.id == inc.id then
    acc.map fun r => if r.id == inc.id then inc else r
  else
    acc ++ [inc]

/-- The flat concatenation of `generateIncludes` over the document's
objects (the `includes` local of the `included` getter). -/
def Document.rawIncludes {α : Type} (d : Document α) : List ResourceObject :=
  let objs :=
    match d.objects with
    | .inl obj => [obj]
    | .inr objs => objs
  objs.foldl (fun acc obj => acc ++ d.generateIncludes obj) []

/-- The `included` getter: `Object.values` of an accumulator object keyed by
`include.id`. -/
def Document.includedGetter {α : Type} (d : Document α) :
    List ResourceObject :=
  d.rawIncludes.foldl upsertById []

/-- The top-level JSONAPI envelope assembled by the `document` getter. -/
structure Envelope where
  data : Option (ResourceObject ⊕ List ResourceObject)
  errors : Option (List APIError)
  included : Option (List ResourceObject)
  links : Option String
  jsonapiVersion : String

/-- The branch structure of the `document` getter: when `this.errors` is
truthy the envelope holds `errors` and omits `data` and `included`;
otherwise it holds `data` and `included` and omits `errors`. -/
def assembleDocument (errors : Option (List APIError))
    (dta : ResourceObject ⊕ List ResourceObject)
    (included : List ResourceObject) : Envelope :=
  match errors with
  | some errs =>
    { data := none, errors := some errs, included := none, links := none,
      jsonapiVersion := "1.0" }
  | none =>
    { data := some dta, errors := none, included := some included,
      links := none, jsonapiVersion := "1.0" }

/-- The `document` getter of `Document.js`. -/
def Document.document {α : Type} (d : Document α) : Envelope :=
  assembleDocument d.errorsGetter d.dataGetter d.includedGetter

/-- C6 counterexample document: one object whose includes contain two
distinct resources that share an id but differ in type. -/
def c6Doc : Document Unit :=
  { objects := .inl ()
    viewOf := fun _ => ⟨"rescues", "R1"⟩
    generateIncludes := fun _ => [⟨"rats", "A"⟩, ⟨"ships", "A"⟩] }

/-- A `{type, id}` resource-linkage object of a relationship payload; the
`id` member may be absent (`undefined`), which the validity checks test
for. -/
structure Linkage where
  type : String
  id : Option String
  deriving DecidableEq, Repr

/-- The JSON shapes a relationship payload body can take: `null`, a single
linkage object, or an array of linkage objects. -/
inductive RelationshipData
  | null
  | one (obj : Linkage)
  | many (objs : List Linkage)
  deriving DecidableEq, Repr

/-- A thrown outcome of the relationship-change path: a structured
`APIError`, or an engine-level JavaScript `TypeError` (such as reading a
property of `null`). -/
inductive Thrown
  | api (e : APIError)
  | jsTypeError (message : String)
  deriving DecidableEq, Repr

/-- The member access `data.id` under JavaScript semantics for the payload
forms: reading a property of `null` throws a `TypeError`; the `id` property
of an array is `undefined`. -/
def RelationshipData.idProp : RelationshipData → Except Thrown (Option String)
  | .null => .error (.jsTypeError "Cannot read property id of null")
  | .one obj => .ok obj.id
  | .many _ => .ok none

/-- `APIResource.isValidOneRelationship`: an object must have a defined
`id` and a `type` matching `relationTypes[relation]`; a falsy payload
(`null`) is valid (the clear form); an array has an `undefined` `id` member
and is invalid. -/
def isValidOneRelationship (relationTypes : String → Option String)
    (relationship : RelationshipData) (relation : String) : Bool :=
  match relationship with
  | .one obj =>
    match relationTypes relation with
    | some target => obj.id.isSome && (obj.type == target)
    | none => false
  | .many _ => false
  | .null => true

/-- `APIResource.isValidManyRelationship` applied to one array element. -/
def isValidManyRelationship (relationTypes : String → Option String)
    (relationship : Linkage) (relation : String) : Bool :=
  match relationTypes relation with
  | some target => relationship.id.isSome && (relationship.type == target)
  | none => false

/-- A relationship-change descriptor as `changeRelationship` returns it:
the cardinality flag `many` and the permission predicate's evaluated value
for this connection and entity. -/
structure RelDescriptor where
  many : Bool
  hasPermission : Bool
  deriving DecidableEq, Repr

/-- The storage call issued at the end of `generateRelationshipChange`:
`changeRelationship[change]({entity, ids})` for a many relation, or
`changeRelationship[change]({entity, id})` for a one relation. -/
inductive RelOp
  | callMany (change : String) (ids : List (Option String))
  | callOne (change : String) (id : Option String)
  deriving DecidableEq, Repr

/-- The `data.map` loop of the many-cardinality branch: each element must
be a valid many relationship (else `UnprocessableEntity` at `/data`), then
the permission predicate is consulted (else `Forbidden` at `/data`), and
the element ids are collected. -/
def collectManyIds (relationTypes : String → Option String)
    (hasPermission : Bool) (relation : String) :
    List Linkage → Except Thrown (List (Option String))
  | [] => .ok []
  | obj :: rest =>
    if isValidManyRelationship relationTypes obj relation = false then
      .error (.api (.unprocessableEntity "/data"))
    else if hasPermission = false then
      .error (.api (.forbidden (some "/data")))
    else
      match collectManyIds relationTypes hasPermission relation rest with
      | .error e => .error e
      | .ok ids => .ok (obj.id :: ids)

/-- `APIResource.generateRelationshipChange`: an array payload with a
many-cardinality descriptor goes through the element loop; a valid one
payload (object or null) with a one-cardinality descriptor is permission
checked and then `data.id` is read for the storage call; every other
combination is `UnprocessableEntity` at `/data`. -/
def generateRelationshipChange (relationTypes : String → Option String)
    (descriptor : RelDescriptor) (data : RelationshipData) (change : String)
    (relation : String) : Except Thrown RelOp :=
  let validOne := isValidOneRelationship relationTypes data relation
  match data, descriptor.many with
  | .many objs, true =>
    match collectManyIds relationTypes descriptor.hasPermission relation
        objs with
    | .error e => .error e
    | .ok ids => .ok (.callMany change ids)
  | dta, dmany =>
    if validOne && !dmany then
      if descriptor.hasPermission = false then
        .error (.api (.forbidden (some "/data")))
      else
        match dta.idProp with
        | .error e => .error e
        | .ok i => .ok (.callOne change i)
    else
      .error (.api (.unprocessableEntity "/data"))

/-- The `relationTypes` map of `routes/Rescues.js`. -/
def rescuesRelationTypes : String → Option String
  | "rats" => some "rats"
  | "firstLimpet" => some "rats"
  | "rescueClient" => some "rescue-clients"
  | _ => none

/-- The one-cardinality `firstLimpet` descriptor of `routes/Rescues.js`,
with the permission predicate's value supplied. -/
def firstLimpetDescriptor (hasPermission : Bool) : RelDescriptor :=
  ⟨false, hasPermission⟩

/-- The `required` decorator of `API.js`: the declared data fields missing
from the request body's own properties are collected, and one
`BadRequestAPIError` per missing field is thrown as a list. -/
def requiredFields (fields : List String) (dataKeys : List String) :
    Except (List APIError) Unit :=
  let missingFields := fields.filter fun f => !dataKeys.contains f
  if missingFields.length > 0 then
    .error (missingFields.map fun f =>
      .badRequest ("/data/attributes/" ++ f))
  else
    .ok ()

/-- A JavaScript value as stored under a data field, for truthiness. -/
inductive JsValue
  | vUndefined
  | vNull
  | vBool (b : Bool)
  | vNum (n : Int)
  | vStr (s : String)
  deriving DecidableEq, Repr

/-- JavaScript truthiness of a data-field value. -/
def JsValue.truthy : JsValue → Bool
  | .vUndefined => false
  | .vNull => false
  | .vBool b => b
  | .vNum n => decide (n ≠ 0)
  | .vStr s => decide (s ≠ "")

/-- The `fields.map` loop of the `protect` decorator: a falsy field value
skips the check; a truthy one without the required permission throws
`ForbiddenAPIError`. -/
def protectLoop (permissionGranted : Bool) (dta : String → JsValue) :
    List String → Except APIError Unit
  | [] => .ok ()
  | f :: rest =>
    if (dta f).truthy = false then
      protectLoop permissionGranted dta rest
    else if permissionGranted = false then
      .error (.forbidden none)
    else
      protectLoop permissionGranted dta rest

/-- The `protect` decorator of `API.js`: with a falsy `ctx.data` the whole
check is skipped; otherwise each protected field goes through the loop. -/
def protectFields (permissionGranted : Bool) (fields : List String)
    (dta : Option (String → JsValue)) : Except APIError Unit :=
  match dta with
  | none => .ok ()
  | some d => protectLoop permissionGranted d fields

-- Helper lemmas about the attribute check loop.

theorem checkWriteAttributes_ok_iff (policy : String → Option WritePermission)
    (g s i : Bool) (attributes : List String) :
    checkWriteAttributes policy g s i attributes = .ok () ↔
      ∀ key ∈ attributes, ∃ tier, policy key = some tier ∧
        hasPermissionForTier tier g s i = true := by
  induction attributes with
  | nil => simp [checkWriteAttributes]
  | cons key rest ih =>
    simp only [checkWriteAttributes]
    cases hp : policy key with
    | none =>
      simp only [List.mem_cons]
      constructor
      · intro h
        exact absurd h (by simp)
      · intro h
        obtain ⟨tier, htier, -⟩ := h key (Or.inl rfl)
        simp [hp] at htier
    | some tier =>
      by_cases hc : hasPermissionForTier tier g s i = true
      · simp only [hc, if_true, ih, List.mem_cons]
        constructor
        · intro h k hk
          rcases hk with hk | hk
          · exact ⟨tier, by simp [hk, hp], by simpa [hk] using hc⟩
          · exact h k hk
        · intro h k hk
          exact h k (Or.inr hk)
      · simp only [hc, if_false, List.mem_cons]
        constructor
        · intro h
          exact absurd h (by simp)
        · intro h
          obtain ⟨tier2, htier2, hperm2⟩ := h key (Or.inl rfl)
          rw [hp] at htier2
          cases htier2
          exact absurd hperm2 hc

theorem checkWriteAttributes_error_shape
    (policy : String → Option WritePermission) (g s i : Bool)
    (attributes : List String) :
    checkWriteAttributes policy g s i attributes = .ok () ∨
      ∃ key, key ∈ attributes ∧
        checkWriteAttributes policy g s i attributes
          = .error (.forbidden (some ("/data/attributes/" ++ key))) := by
  induction attributes with
  | nil => exact Or.inl rfl
  | cons key rest ih =>
    simp only [checkWriteAttributes]
    cases hp : policy key with
    | none =>
      exact Or.inr ⟨key, List.mem_cons_self key rest, rfl⟩
    | some tier =>
      by_cases hc : hasPermissionForTier tier g s i = true
      · simp only [hc, if_true]
        rcases ih with h | ⟨k, hk, herr⟩
        · exact Or.inl h
        · exact Or.inr ⟨k, List.mem_cons_of_mem key hk, herr⟩
      · simp only [hc, if_false]
        exact Or.inr ⟨key, List.mem_cons_self key rest, rfl⟩

/-- C1: for every write request (create or update), an attribute key absent
from the resource's write-permission policy map makes the operation throw
`ForbiddenAPIError` pointing at an attribute of the payload, persisting
nothing (`createOp`/`updateOp` only persist on `ok`); and whenever an
operation does persist, every persisted key is in the policy-map domain. -/
theorem c1_write_allowlist (ty : String)
    (policy : String → Option WritePermission) (selfPredicate : Bool)
    (ctx : Ctx) (attributes : List String) :
    (∀ key, key ∈ attributes → policy key = none →
      (∃ k, k ∈ attributes ∧
        validateCreateAccess ty policy ctx attributes
          = .error (.forbidden (some ("/data/attributes/" ++ k)))) ∧
      (∃ k, k ∈ attributes ∧
        validateUpdateAccess ty policy selfPredicate ctx attributes
          = .error (.forbidden (some ("/data/attributes/" ++ k))))) ∧
    (∀ persisted, createOp ty policy ctx attributes = .ok persisted →
      ∀ k, k ∈ persisted → (policy k).isSome = true) ∧
    (∀ persisted, updateOp ty policy selfPredicate ctx attributes
        = .ok persisted → ∀ k, k ∈ persisted → (policy k).isSome = true) := by
  refine ⟨?_, ?_, ?_⟩
  · intro key hmem habs
    constructor
    · rcases checkWriteAttributes_error_shape policy
          (granted [ty ++ ".write"] ctx) (granted [ty ++ ".write.me"] ctx)
          (granted [ty ++ ".internal"] ctx) attributes with h | ⟨k, hk, herr⟩
      · rw [checkWriteAttributes_ok_iff] at h
        obtain ⟨tier, htier, -⟩ := h key hmem
        rw [habs] at htier
        cases htier
      · exact ⟨k, hk, herr⟩
    · rcases checkWriteAttributes_error_shape policy
          (granted [ty ++ ".write"] ctx)
          (selfPredicate && granted [ty ++ ".write.me"] ctx)
          (granted [ty ++ ".internal"] ctx) attributes with h | ⟨k, hk, herr⟩
      · rw [checkWriteAttributes_ok_iff] at h
        obtain ⟨tier, htier, -⟩ := h key hmem
        rw [habs] at htier
        cases htier
      · exact ⟨k, hk, herr⟩
  · intro persisted hok k hk
    unfold createOp at hok
    cases hv : validateCreateAccess ty policy ctx attributes with
    | error e => rw [hv] at hok; cases hok
    | ok u =>
      rw [hv] at hok
      cases hok
      unfold validateCreateAccess at hv
      cases u
      rw [checkWriteAttributes_ok_iff] at hv
      obtain ⟨tier, htier, -⟩ := hv k hk
      simp [htier]
  · intro persisted hok k hk
    unfold updateOp at hok
    by_cases hgate : hasWritePermission ty selfPredicate ctx = false
    · rw [if_pos hgate] at hok; cases hok
    · rw [if_neg hgate] at hok
      cases hv : validateUpdateAccess ty policy selfPredicate ctx attributes with
      | error e => rw [hv] at hok; cases hok
      | ok u =>
        rw [hv] at hok
        cases hok
        unfold validateUpdateAccess at hv
        cases u
        rw [checkWriteAttributes_ok_iff] at hv
        obtain ⟨tier, htier, -⟩ := hv k hk
        simp [htier]

/-- C1 witness: the rescues policy map does not contain `bogusField`, so a
create payload carrying it is rejected with Forbidden at that attribute. -/
theorem c1_write_allowlist_witness :
    ∃ k, k ∈ ["bogusField"] ∧
      validateCreateAccess "rescues" rescuesWritePermissions emptyCtx
        ["bogusField"]
        = .error (.forbidden (some ("/data/attributes/" ++ k))) :=
  ((c1_write_allowlist "rescues" rescuesWritePermissions false emptyCtx
    ["bogusField"]).1 "bogusField" (by decide) (by decide)).1

/-- C2: `validateUpdateAccess` succeeds exactly when every payload key has a
tier in the policy map and the tier condition of the spec's table holds:
`all` always, `internal` iff the `<type>.internal` scope, `sudo` iff the
`<type>.write` scope (isGroup), `group` iff isGroup or isSelf, `self` iff
isSelf — where isSelf is the resource predicate conjoined with the
`<type>.write.me` scope; and any denied or unknown field makes it throw
Forbidden pointing at a payload attribute. -/
theorem c2_update_tier_table (ty : String)
    (policy : String → Option WritePermission) (selfPredicate : Bool)
    (ctx : Ctx) (attributes : List String) :
    (validateUpdateAccess ty policy selfPredicate ctx attributes = .ok () ↔
      ∀ key ∈ attributes, ∃ tier, policy key = some tier ∧
        (tier = .all ∨
         (tier = .internal ∧ granted [ty ++ ".internal"] ctx = true) ∨
         (tier = .sudo ∧ granted [ty ++ ".write"] ctx = true) ∨
         (tier = .group ∧ (granted [ty ++ ".write"] ctx = true ∨
            (selfPredicate = true ∧
              granted [ty ++ ".write.me"] ctx = true))) ∨
         (tier = .self ∧ selfPredicate = true ∧
            granted [ty ++ ".write.me"] ctx = true))) ∧
    (validateUpdateAccess ty policy selfPredicate ctx attributes = .ok () ∨
      ∃ key, key ∈ attributes ∧
        validateUpdateAccess ty policy selfPredicate ctx attributes
          = .error (.forbidden (some ("/data/attributes/" ++ key)))) := by
  constructor
  · unfold validateUpdateAccess
    rw [checkWriteAttributes_ok_iff]
    constructor
    · intro h key hkey
      obtain ⟨tier, htier, hperm⟩ := h key hkey
      refine ⟨tier, htier, ?_⟩
      cases tier
      · exact Or.inr (Or.inl ⟨rfl, by simpa [hasPermissionForTier] using hperm⟩)
      · refine Or.inr (Or.inr (Or.inr (Or.inr ⟨rfl, ?_⟩)))
        simpa [hasPermissionForTier, Bool.and_eq_true] using hperm
      · refine Or.inr (Or.inr (Or.inr (Or.inl ⟨rfl, ?_⟩)))
        simp only [hasPermissionForTier, Bool.or_eq_true,
          Bool.and_eq_true] at hperm
        exact hperm
      · exact Or.inr (Or.inr (Or.inl
          ⟨rfl, by simpa [hasPermissionForTier] using hperm⟩))
      · exact Or.inl rfl
    · intro h key hkey
      obtain ⟨tier, htier, hcond⟩ := h key hkey
      refine ⟨tier, htier, ?_⟩
      rcases hcond with h1 | ⟨h1, h2⟩ | ⟨h1, h2⟩ | ⟨h1, h2⟩ | ⟨h1, h2, h3⟩
      · subst h1; rfl
      · subst h1; simpa [hasPermissionForTier] using h2
      · subst h1; simpa [hasPermissionForTier] using h2
      · subst h1
        simp only [hasPermissionForTier, Bool.or_eq_true, Bool.and_eq_true]
        exact h2
      · subst h1; simp [hasPermissionForTier, Bool.and_eq_true, h2, h3]
  · unfold validateUpdateAccess
    rcases checkWriteAttributes_error_shape policy
        (granted [ty ++ ".write"] ctx)
        (selfPredicate && granted [ty ++ ".write.me"] ctx)
        (granted [ty ++ ".internal"] ctx) attributes with h | ⟨k, hk, herr⟩
    · exact Or.inl h
    · exact Or.inr ⟨k, hk, herr⟩

/-- C3 counterexample: the claim says a self-tier attribute is always
denied at create time regardless of granted scopes; but a requester holding
only `users.write.me` creates a self-tier `email` attribute successfully. -/
theorem c3_create_self_counterexample :
    validateCreateAccess "users" selfTierPolicy usersWriteMeCtx ["email"]
      = .ok () := rfl

/-- C3 amended: at create time an attribute whose write tier is `self` is
allowed iff the requester holds the `<type>.write.me` scope (the create-time
self facet is exactly that scope check, with no entity predicate); it is
denied for every requester lacking that scope. -/
theorem c3_create_self_tier (ty : String)
    (policy : String → Option WritePermission) (ctx : Ctx) (key : String)
    (hpol : policy key = some .self) :
    validateCreateAccess ty policy ctx [key] = .ok () ↔
      granted [ty ++ ".write.me"] ctx = true := by
  unfold validateCreateAccess
  rw [checkWriteAttributes_ok_iff]
  constructor
  · intro h
    obtain ⟨tier, htier, hperm⟩ := h key (by simp)
    rw [hpol] at htier
    cases htier
    simpa [hasPermissionForTier] using hperm
  · intro h k hk
    simp only [List.mem_singleton] at hk
    subst hk
    exact ⟨.self, hpol, by simpa [hasPermissionForTier] using h⟩

/-- C3 witness: a requester holding `tokens.write.me` may create the
self-tier `value` attribute of a token. -/
theorem c3_create_self_tier_witness :
    validateCreateAccess "tokens" tokenValuePolicy tokensWriteMeCtx ["value"]
      = .ok () :=
  (c3_create_self_tier "tokens" tokenValuePolicy tokensWriteMeCtx "value"
    (by decide)).mpr (by decide)

/-- C4 counterexample: an assigned rat holding `rescues.write.me` but not
`rescues.write`, outside the grace window, satisfies the claim's formula
(assigned and write-me scope) but the code's facet is false, and the facet
flows into `validateUpdateAccess`, which denies a group-tier field. -/
theorem c4_self_facet_counterexample :
    claimedRescuesSelfFacet c4Now c4Ctx c4Entity = true ∧
    rescuesSelfFacet c4Now c4Ctx c4Entity = false ∧
    validateUpdateAccess "rescues" rescuesWritePermissions
      (rescuesIsSelf c4Now c4Ctx c4Entity) c4Ctx ["client"]
      = .error (.forbidden (some "/data/attributes/client")) :=
  ⟨rfl, rfl, rfl⟩

/-- C4 amended: the isSelf facet used by rescue write-permission checks is
true iff a user is authenticated, the requester holds `rescues.write.me`,
and either the rescue was created within the 3-hour grace window from now,
or the requester is an assigned rat or the first-limpet rat and
additionally holds the `rescues.write` scope.  In particular a grace-window
requester lacking `rescues.write.me` is not self, and an unassigned creator
at `T + 2*grace` is denied self-write and falls through to the group
check. -/
theorem c4_self_facet_amended (now : Int) (ctx : Ctx)
    (entity : RescueEntity) :
    rescuesSelfFacet now ctx entity = true ↔
      ∃ uid, ctx.userId = some uid ∧
        granted ["rescues.write.me"] ctx = true ∧
        (now - entity.createdAt < rescueAccessTime ∨
          ((entity.rats.any (fun rat => rat.userId == uid) = true ∨
            ∃ fl, entity.firstLimpet = some fl ∧ fl.userId = uid) ∧
            granted ["rescues.write"] ctx = true)) := by
  unfold rescuesSelfFacet rescuesIsSelf
  cases hu : ctx.userId with
  | none => simp
  | some uid =>
    by_cases hgrace : now - entity.createdAt < rescueAccessTime
    · simp [hgrace, Bool.and_eq_true]
    · cases hfl : entity.firstLimpet with
      | none =>
        by_cases ha : (entity.rats.any fun rat => rat.userId == uid) = true
        · simp [hgrace, ha, -List.any_eq_true, Bool.and_eq_true, And.comm]
        · simp [hgrace, ha, -List.any_eq_true, Bool.and_eq_true]
      | some fl =>
        by_cases hflu : fl.userId = uid
        · simp [hgrace, hflu, -List.any_eq_true, Bool.and_eq_true, And.comm]
        · by_cases ha : (entity.rats.any fun rat => rat.userId == uid) = true
          · simp [hgrace, ha, hflu, -List.any_eq_true, Bool.and_eq_true,
              And.comm]
          · simp [hgrace, ha, hflu, -List.any_eq_true, Bool.and_eq_true]

-- Helper lemmas about the included-object accumulator.

theorem upsertById_map_id_of_any (acc : List ResourceObject)
    (inc : ResourceObject) (h : (acc.any fun r => r.id == inc.id) = true) :
    (upsertById acc inc).map ResourceObject.id
      = acc.map ResourceObject.id := by
  unfold upsertById
  rw [if_pos h, List.map_map]
  apply List.map_congr_left
  intro r _
  by_cases hr : (r.id == inc.id) = true
  · simp only [Function.comp_apply, if_pos hr]
    exact (eq_of_beq hr).symm
  · simp only [Function.comp_apply, if_neg hr]

theorem upsertById_of_not_any (acc : List ResourceObject)
    (inc : ResourceObject) (h : ¬(acc.any fun r => r.id == inc.id) = true) :
    upsertById acc inc = acc ++ [inc] := by
  unfold upsertById
  rw [if_neg h]

theorem mem_map_id_of_any (acc : List ResourceObject) (inc : ResourceObject)
    (h : (acc.any fun r => r.id == inc.id) = true) :
    inc.id ∈ acc.map ResourceObject.id := by
  rw [List.any_eq_true] at h
  obtain ⟨r, hr, hid⟩ := h
  exact List.mem_map.mpr ⟨r, hr, eq_of_beq hid⟩

theorem not_mem_map_id_of_not_any (acc : List ResourceObject)
    (inc : ResourceObject)
    (h : ¬(acc.any fun r => r.id == inc.id) = true) :
    inc.id ∉ acc.map ResourceObject.id := by
  intro hmem
  apply h
  rw [List.any_eq_true]
  obtain ⟨r, hr, hid⟩ := List.mem_map.mp hmem
  exact ⟨r, hr, beq_iff_eq.mpr hid⟩

theorem upsertById_nodup (acc : List ResourceObject) (inc : ResourceObject)
    (h : (acc.map ResourceObject.id).Nodup) :
    ((upsertById acc inc).map ResourceObject.id).Nodup := by
  by_cases hany : (acc.any fun r => r.id == inc.id) = true
  · rw [upsertById_map_id_of_any acc inc hany]
    exact h
  · rw [upsertById_of_not_any acc inc hany, List.map_append]
    simp only [List.map_cons, List.map_nil]
    rw [List.nodup_append]
    exact ⟨h, List.nodup_singleton inc.id, by
      intro x hx hx1
      rw [List.mem_singleton] at hx1
      subst hx1
      exact not_mem_map_id_of_not_any acc inc hany hx⟩

theorem upsertById_id_subset (acc : List ResourceObject)
    (inc : ResourceObject) (x : String)
    (hx : x ∈ acc.map ResourceObject.id) :
    x ∈ (upsertById acc inc).map ResourceObject.id := by
  by_cases hany : (acc.any fun r => r.id == inc.id) = true
  · rw [upsertById_map_id_of_any acc inc hany]
    exact hx
  · rw [upsertById_of_not_any acc inc hany, List.map_append]
    exact List.mem_append_left _ hx

theorem upsertById_id_mem (acc : List ResourceObject)
    (inc : ResourceObject) :
    inc.id ∈ (upsertById acc inc).map ResourceObject.id := by
  by_cases hany : (acc.any fun r => r.id == inc.id) = true
  · rw [upsertById_map_id_of_any acc inc hany]
    exact mem_map_id_of_any acc inc hany
  · rw [upsertById_of_not_any acc inc hany, List.map_append]
    exact List.mem_append_right _ (by simp)

theorem upsertById_mem_of_mem (acc : List ResourceObject)
    (inc : ResourceObject) (r : ResourceObject)
    (hr : r ∈ upsertById acc inc) : r ∈ acc ∨ r = inc := by
  by_cases hany : (acc.any fun a => a.id == inc.id) = true
  · unfold upsertById at hr
    rw [if_pos hany] at hr
    obtain ⟨a, ha, heq⟩ := List.mem_map.mp hr
    by_cases hid : (a.id == inc.id) = true
    · rw [if_pos hid] at heq
      exact Or.inr heq.symm
    · rw [if_neg hid] at heq
      exact Or.inl (heq ▸ ha)
  · rw [upsertById_of_not_any acc inc hany] at hr
    rcases List.mem_append.mp hr with h | h
    · exact Or.inl h
    · exact Or.inr (List.mem_singleton.mp h)

theorem foldl_upsertById_invariant (l : List ResourceObject) :
    ∀ acc : List ResourceObject, (acc.map ResourceObject.id).Nodup →
      ((l.foldl upsertById acc).map ResourceObject.id).Nodup ∧
      (∀ x, x ∈ acc.map ResourceObject.id →
        x ∈ (l.foldl upsertById acc).map ResourceObject.id) ∧
      (∀ inc, inc ∈ l →
        inc.id ∈ (l.foldl upsertById acc).map ResourceObject.id) ∧
      (∀ r, r ∈ l.foldl upsertById acc → r ∈ acc ∨ r ∈ l) := by
  induction l with
  | nil =>
    intro acc h
    exact ⟨h, fun x hx => hx, by simp, fun r hr => Or.inl hr⟩
  | cons inc rest ih =>
    intro acc h
    simp only [List.foldl_cons]
    obtain ⟨ih1, ih2, ih3, ih4⟩ :=
      ih (upsertById acc inc) (upsertById_nodup acc inc h)
    refine ⟨ih1, ?_, ?_, ?_⟩
    · intro x hx
      exact ih2 x (upsertById_id_subset acc inc x hx)
    · intro j hj
      rcases List.mem_cons.mp hj with hj | hj
      · subst hj
        exact ih2 j.id (upsertById_id_mem acc j)
      · exact ih3 j hj
    · intro r hr
      rcases ih4 r hr with hcase | hcase
      · rcases upsertById_mem_of_mem acc inc r hcase with h1 | h1
        · exact Or.inl h1
        · exact Or.inr (List.mem_cons.mpr (Or.inl h1))
      · exact Or.inr (List.mem_cons.mpr (Or.inr hcase))

/-- C5: for every errors value, data value and included list, and so on
every code path of the `document` getter, the assembled envelope contains
exactly one of `data` or `errors` — and so does the envelope of every
`Document` instance. -/
theorem c5_data_errors_exclusive :
    (∀ (errors : Option (List APIError))
      (dta : ResourceObject ⊕ List ResourceObject)
      (included : List ResourceObject),
      ((assembleDocument errors dta included).data.isSome = true ∧
        (assembleDocument errors dta included).errors = none) ∨
      ((assembleDocument errors dta included).data = none ∧
        (assembleDocument errors dta included).errors.isSome = true)) ∧
    (∀ (α : Type) (d : Document α),
      (d.document.data.isSome = true ∧ d.document.errors = none) ∨
      (d.document.data = none ∧ d.document.errors.isSome = true)) := by
  constructor
  · intro errors dta included
    cases errors with
    | none => exact Or.inl ⟨rfl, rfl⟩
    | some errs => exact Or.inr ⟨rfl, rfl⟩
  · intro α d
    exact Or.inl ⟨rfl, rfl⟩

/-- C6 counterexample: the claim says `included` is deduplicated keyed by
the pair `(type, id)`, so two included resources sharing an id but
differing in type should both appear; but the accumulator is keyed by `id`
alone, so of `{rats, A}` and `{ships, A}` only the latter survives. -/
theorem c6_included_counterexample :
    c6Doc.rawIncludes
      = [ResourceObject.mk "rats" "A", ResourceObject.mk "ships" "A"] ∧
    c6Doc.includedGetter = [ResourceObject.mk "ships" "A"] ∧
    ResourceObject.mk "rats" "A" ∉ c6Doc.includedGetter := by
  refine ⟨rfl, rfl, ?_⟩
  intro hmem
  rw [show c6Doc.includedGetter = [ResourceObject.mk "ships" "A"] from rfl]
    at hmem
  rw [List.mem_singleton] at hmem
  exact absurd (congrArg ResourceObject.type hmem) (by decide)

/-- C6 amended: `included` is deduplicated keyed by `id` alone: no two
entries of the rendered `included` share an id (so a resource referenced
from multiple places appears once), every raw include is represented by an
entry carrying its id, every entry comes from the raw includes — and two
distinct resources that differ in type but share an id collapse into one
entry. -/
theorem c6_included_dedup_by_id (α : Type) (d : Document α) :
    (d.includedGetter.map ResourceObject.id).Nodup ∧
    (∀ inc, inc ∈ d.rawIncludes →
      inc.id ∈ d.includedGetter.map ResourceObject.id) ∧
    (∀ r, r ∈ d.includedGetter → r ∈ d.rawIncludes) := by
  obtain ⟨h1, -, h3, h4⟩ :=
    foldl_upsertById_invariant d.rawIncludes [] (by simp)
  refine ⟨h1, h3, ?_⟩
  intro r hr
  rcases h4 r hr with h | h
  · cases h
  · exact h

/-- C9: the `errors` accessor of `Document` returns `null` unconditionally,
so the errors branch of the `document` getter is unreachable: every
rendered envelope is a data document (with `included`), never an error
document. -/
theorem c9_errors_branch_unreachable (α : Type) (d : Document α) :
    d.errorsGetter = none ∧
    d.document = assembleDocument none d.dataGetter d.includedGetter ∧
    d.document.errors = none ∧
    d.document.data = some d.dataGetter ∧
    d.document.included = some d.includedGetter :=
  ⟨rfl, rfl, rfl, rfl, rfl⟩

-- Helper lemmas for the decorators.

theorem string_append_left_cancel {s t u : String} (h : s ++ t = s ++ u) :
    t = u := by
  have hd := congrArg String.data h
  simp only [String.data_append] at hd
  exact String.ext (List.append_cancel_left hd)

theorem protectLoop_spec (permissionGranted : Bool) (d : String → JsValue)
    (fields : List String) :
    (protectLoop permissionGranted d fields = .error (.forbidden none) ↔
      permissionGranted = false ∧
        ∃ f, f ∈ fields ∧ (d f).truthy = true) ∧
    (protectLoop permissionGranted d fields = .ok () ∨
      protectLoop permissionGranted d fields = .error (.forbidden none)) := by
  induction fields with
  | nil =>
    refine ⟨?_, Or.inl rfl⟩
    simp [protectLoop]
  | cons f rest ih =>
    obtain ⟨ih1, ih2⟩ := ih
    simp only [protectLoop]
    by_cases ht : (d f).truthy = false
    · rw [if_pos ht]
      refine ⟨?_, ih2⟩
      rw [ih1]
      constructor
      · rintro ⟨hp, g, hg, hgt⟩
        exact ⟨hp, g, List.mem_cons_of_mem f hg, hgt⟩
      · rintro ⟨hp, g, hg, hgt⟩
        rcases List.mem_cons.mp hg with h | h
        · subst h
          rw [ht] at hgt
          cases hgt
        · exact ⟨hp, g, h, hgt⟩
    · rw [if_neg ht]
      by_cases hp : permissionGranted = false
      · rw [if_pos hp]
        refine ⟨?_, Or.inr rfl⟩
        constructor
        · intro _
          refine ⟨hp, f, List.mem_cons_self f rest, ?_⟩
          revert ht
          cases (d f).truthy <;> simp
        · intro _
          rfl
      · rw [if_neg hp]
        refine ⟨?_, ih2⟩
        rw [ih1]
        constructor
        · rintro ⟨hp2, -⟩
          exact absurd hp2 hp
        · rintro ⟨hp2, -⟩
          exact absurd hp2 hp

/-- C7: the code bug at the null clear form.  The one-relationship validity
check explicitly accepts `null` (the documented clear form), so the
one-cardinality branch is taken with a granted permission; but the branch
then reads `data.id` from the `null` payload, which throws a JavaScript
`TypeError` instead of invoking the descriptor's `patch` operation. -/
theorem c7_null_one_patch_type_error :
    isValidOneRelationship rescuesRelationTypes .null "firstLimpet"
      = true ∧
    generateRelationshipChange rescuesRelationTypes
      (firstLimpetDescriptor true) .null "patch" "firstLimpet"
      = .error (.jsTypeError "Cannot read property id of null") :=
  ⟨rfl, rfl⟩

/-- C8: a request missing a non-empty subset of the endpoint's required
data fields fails with a multi-error list holding exactly one BadRequest
error per missing field (all missing fields are accumulated, not just the
first one encountered). -/
theorem c8_required_accumulates (fields dataKeys : List String)
    (hnodup : fields.Nodup)
    (hne : fields.filter (fun f => !dataKeys.contains f) ≠ []) :
    ∃ errs, requiredFields fields dataKeys = .error errs ∧
      errs = (fields.filter fun f => !dataKeys.contains f).map
          (fun f => APIError.badRequest ("/data/attributes/" ++ f)) ∧
      errs.length
        = (fields.filter fun f => !dataKeys.contains f).length ∧
      ∀ f, f ∈ fields → dataKeys.contains f = false →
        errs.count (APIError.badRequest ("/data/attributes/" ++ f)) = 1 := by
  have hM : 0 < (fields.filter fun f => !dataKeys.contains f).length :=
    List.length_pos.mpr hne
  refine ⟨(fields.filter fun f => !dataKeys.contains f).map
      (fun f => APIError.badRequest ("/data/attributes/" ++ f)),
    ?_, rfl, by simp, ?_⟩
  · simp only [requiredFields]
    rw [if_pos hM]
  · intro f hf hfk
    have hinj : Function.Injective
        (fun f => APIError.badRequest ("/data/attributes/" ++ f)) := by
      intro a b hab
      simp only [APIError.badRequest.injEq] at hab
      exact string_append_left_cancel hab
    rw [List.count_map_of_injective _ _ hinj]
    exact List.count_eq_one_of_mem (hnodup.filter _)
      (List.mem_filter.mpr ⟨hf, by rw [Bool.not_eq_true']; exact hfk⟩)

/-- C8 witness: an endpoint requiring fields `a` and `b`, given an empty
data object, accumulates an error for `a` (and one for `b`). -/
theorem c8_required_accumulates_witness :
    ∃ errs, requiredFields ["a", "b"] [] = .error errs ∧
      errs.count (APIError.badRequest ("/data/attributes/" ++ "a")) = 1 := by
  obtain ⟨errs, h1, -, -, h4⟩ :=
    c8_required_accumulates ["a", "b"] [] (by decide) (by decide)
  exact ⟨errs, h1, h4 "a" (by decide) (by decide)⟩

/-- C10: the `protect` decorator raises Forbidden iff some protected field
holds a truthy value in the request data and the permission is not
granted; every protected field with a falsy value (undefined, null, false,
0, empty string) bypasses the permission check, and with a falsy
`ctx.data` the whole check is skipped. -/
theorem c10_protect_truthy_gate (permissionGranted : Bool)
    (fields : List String) (d : String → JsValue) :
    (protectFields permissionGranted fields (some d)
        = .error (.forbidden none) ↔
      permissionGranted = false ∧
        ∃ f, f ∈ fields ∧ (d f).truthy = true) ∧
    (protectFields permissionGranted fields (some d) = .ok () ∨
      protectFields permissionGranted fields (some d)
        = .error (.forbidden none)) ∧
    protectFields permissionGranted fields none = .ok () := by
  obtain ⟨h1, h2⟩ := protectLoop_spec permissionGranted d fields
  exact ⟨h1, h2, rfl⟩

end FuelRats
